import Mathlib

/-!
Verification of the quota-budgeted daily playlist pipeline of
src/youtube_playlist_manager.py, shallowly embedded in Lean.

Conventions of the embedding:
* timestamps are integer milliseconds since the Unix epoch, always
  denoting UTC instants; the configured Asia/Hong_Kong timezone is a
  fixed UTC+8 offset (no daylight saving in the modelled era);
* the quota counter is a natural number; remote calls are abstracted
  by functions or by success flags passed in as parameters;
* a Python exception that the source may raise is modelled as the
  value none of an Option result.
Line numbers in doc comments refer to src/youtube_playlist_manager.py.
-/

namespace YTM

/-- Counter update of UltraEfficientYouTubeManager.log_quota
(lines 31-34): the counter is unconditionally increased by the cost of
the call that was just issued. -/
def log_quota (quota_used cost : Nat) : Nat := quota_used + cost

/-- The daily quota budget of 10000 units, hard coded in the guards at
lines 443 and 722. -/
def budget : Nat := 10000

/-- The gating disciplines applied to costed calls in the script:
cost-1 listing and batch-read calls issued with no budget check at all
(playlists.list at line 323, playlistItems.list at line 348,
videos.list at line 397, channels.list at line 513, and each
subscriptions.list page at line 475, whose 9000-threshold check at
line 495 runs only after the call, so the call itself is unguarded),
cost-1 reads guarded by the pre-call threshold quota_used > 9500
(lines 565 and 634), cost-50 mutating calls guarded by
quota_used + 50 > 10000 (the delete at line 443 and the insert at
line 722), and the cost-50 playlists.insert of create_playlist
(lines 691-704), which has no budget check at all. -/
inductive QuotaOp
  | readUngated
  | readGated9500
  | mutateGated
  | mutateUngated
deriving DecidableEq

/-- One costed call against counter state q: the new counter value and
whether the call proceeded (true) or was refused by its guard
(false).  The remote call is taken to succeed; a call that fails
remotely records no cost at all (claim C9). -/
def quotaStep (q : Nat) : QuotaOp → Nat × Bool
  | QuotaOp.readUngated => (log_quota q 1, true)
  | QuotaOp.readGated9500 => if 9500 < q then (q, false) else (log_quota q 1, true)
  | QuotaOp.mutateGated => if budget < q + 50 then (q, false) else (log_quota q 50, true)
  | QuotaOp.mutateUngated => (log_quota q 50, true)

/-- The counter after running a sequence of costed calls from state q. -/
def runOps (q : Nat) : List QuotaOp → Nat
  | [] => q
  | op :: ops => runOps (quotaStep q op).1 ops

/-- The pagination loop of get_subscriptions_batch (lines 467-500)
with n pages available upstream: each subscriptions.list call is
issued and logged (cost 1) before any check; the loop then stops on
natural exhaustion (no continuation token, line 491) or, between
pages, once the counter exceeds 9000 (line 495).  Returns the final
counter and the number of calls issued. -/
def get_subscriptions_batch : Nat → Nat → Nat × Nat
  | q, 0 => (q, 0)
  | q, n + 1 =>
    if n = 0 then (log_quota q 1, 1)
    else if 9000 < log_quota q 1 then (log_quota q 1, 1)
    else
      let r := get_subscriptions_batch (log_quota q 1) n
      (r.1, r.2 + 1)

/-- Milliseconds in one civil day. -/
def msPerDay : Int := 86400000

/-- The fixed UTC+8 offset of the configured Asia/Hong_Kong timezone
(line 19), in milliseconds. -/
def hkOffsetMs : Int := 28800000

/-- Midnight of the Hong Kong civil day containing the instant t, as a
UTC instant: the replace of hour, minute, second and microsecond by
zero at line 309. -/
def startOfHKDay (t : Int) : Int := t - (t + hkOffsetMs) % msPerDay

/-- get_yesterday_dates (lines 300-318): the start of the previous
Hong Kong civil day and that start plus 23:59:59 (line 312), both as
UTC instants; the astimezone conversions at lines 315-316 do not move
the instants, only their rendering. -/
def get_yesterday_dates (hkNow : Int) : Int × Int :=
  (startOfHKDay hkNow - msPerDay, startOfHKDay hkNow - msPerDay + 86399000)

/-- The membership test applied to each scanned item at line 587:
yesterday_start <= published_date <= yesterday_end, both ends
closed. -/
def inYesterdayWindow (w : Int × Int) (t : Int) : Bool :=
  decide (w.1 ≤ t) && decide (t ≤ w.2)

/-- One item of an uploads feed: the video id and its publishedAt
instant. -/
structure FeedItem where
  videoId : Nat
  publishedAt : Int
deriving DecidableEq

/-- The per-source scanning loop of batch_get_recent_videos_daily
(lines 579-596): walk the newest-first feed, collect the id of every
item inside the window, stop the walk at the first item strictly older
than the window start (line 593), and keep walking past newer items.
Returns the collected ids in feed order and the number of feed items
examined. -/
def scanFeed (wstart wend : Int) : List FeedItem → List Nat × Nat
  | [] => ([], 0)
  | v :: rest =>
    if wstart ≤ v.publishedAt ∧ v.publishedAt ≤ wend then
      let r := scanFeed wstart wend rest
      (v.videoId :: r.1, r.2 + 1)
    else if v.publishedAt < wstart then
      ([], 1)
    else
      let r := scanFeed wstart wend rest
      (r.1, r.2 + 1)

/-- Numeric value of a decimal digit string, as computed by the int
conversions at lines 682-684. -/
def digitsToNat (ds : List Char) : Nat :=
  ds.foldl (fun a c => a * 10 + (c.toNat - 48)) 0

/-- One optional group of the duration pattern at line 678, a digit
run followed by a unit letter: greedily read the digit run; if it is
non-empty and followed by the unit letter, consume both and capture
the digits, otherwise capture nothing and consume nothing. -/
def matchComponent (u : Char) (s : List Char) : Option (List Char) × List Char :=
  match s.dropWhile Char.isDigit with
  | r :: rs =>
    if s.takeWhile Char.isDigit ≠ [] ∧ r = u then (some (s.takeWhile Char.isDigit), rs)
    else (none, s)
  | [] => (none, s)

/-- The anchored regular-expression match at line 678: none when the
string does not start with the two letters P and T (re.match fails and
parse_duration returns 0), otherwise the three captured groups for
hours, minutes and seconds, each possibly absent. -/
def regexGroups (l : List Char) :
    Option (Option (List Char) × Option (List Char) × Option (List Char)) :=
  match l with
  | p :: t :: rest =>
    if p = 'P' ∧ t = 'T' then
      some ((matchComponent 'H' rest).1,
        (matchComponent 'M' (matchComponent 'H' rest).2).1,
        (matchComponent 'S' (matchComponent 'M' (matchComponent 'H' rest).2).2).1)
    else none
  | _ => none

/-- The int conversion of a captured group at lines 682-684, applied
to group-or-zero: an absent group contributes 0; a present group
converts exactly when it is a non-empty all-digit string, and none
models a raised ValueError. -/
def pyInt : Option (List Char) → Option Nat
  | none => some 0
  | some ds => if ds ≠ [] ∧ ds.all Char.isDigit then some (digitsToNat ds) else none

/-- parse_duration (lines 673-686): 0 for the empty string (line 675),
0 when the pattern does not match (line 680), otherwise hours times
3600 plus minutes times 60 plus seconds.  The value none models an
uncaught exception; the totality claim shows it never occurs. -/
def parse_duration (s : String) : Option Nat :=
  if s.toList = [] then some 0
  else
    match regexGroups s.toList with
    | none => some 0
    | some g =>
      match pyInt g.1, pyInt g.2.1, pyInt g.2.2 with
      | some h, some m, some sec => some (h * 3600 + m * 60 + sec)
      | _, _, _ => none

/-- The filtering stage of batch_get_video_details (lines 647-659):
decode each duration string and keep exactly the videos whose decoded
duration strictly exceeds 600 seconds (line 651). -/
def detailsFilter (vids : List (Nat × String)) : List (Nat × Nat) :=
  (vids.map (fun v => (v.1, (parse_duration v.2).getD 0))).filter (fun v => decide (600 < v.2))

/-- The chunking of an id list into consecutive slices of at most 50,
as built by the slice comprehensions at lines 393, 508 and 628. -/
def chunk50 {α : Type} (l : List α) : List (List α) :=
  match l with
  | [] => []
  | x :: xs => ((x :: xs).take 50) :: chunk50 ((x :: xs).drop 50)
termination_by l.length
decreasing_by
  simp only [List.length_drop]
  exact Nat.sub_lt (by simp) (by decide)

/-- The record resolved per channel by batch_get_channel_uploads: the
uploads playlist id and the channel title (lines 520-527). -/
structure UploadsInfo where
  uploads_playlist : String
  title : String
deriving DecidableEq

/-- batch_get_channel_uploads (lines 502-534), with the remote
channels.list call abstracted as api: an empty input returns the empty
mapping with no call issued (line 504); otherwise the ids are chunked
by 50, one call is issued per chunk, and the returned records are
accumulated keyed by channel id.  The second component counts the
calls issued. -/
def batch_get_channel_uploads (api : List Nat → List (Nat × UploadsInfo))
    (channel_ids : List Nat) : List (Nat × UploadsInfo) × Nat :=
  if channel_ids = [] then ([], 0)
  else ((chunk50 channel_ids).foldl (fun m b => m ++ api b) [], (chunk50 channel_ids).length)

/-- The per-chunk loop of batch_get_video_details (lines 633-665),
with the remote videos.list call abstracted as api, which returns the
(id, duration encoding) records of a requested chunk: before each
chunk the counter is checked against the 9500 threshold (line 634) and
the loop breaks once it is exceeded; otherwise one call is issued
(cost 1, line 644) and the records of the chunk pass the duration
filter.  Remote calls are modelled as succeeding; the try/except at
line 663 would drop a failed chunk without cost.  Returns the final
counter, the number of calls issued, and the kept (id, seconds)
records. -/
def detailsLoop (api : List Nat → List (Nat × String)) :
    Nat → List (List Nat) → Nat × Nat × List (Nat × Nat)
  | q, [] => (q, 0, [])
  | q, b :: bs =>
    if 9500 < q then (q, 0, [])
    else
      let r := detailsLoop api (log_quota q 1) bs
      (r.1, r.2.1 + 1, detailsFilter (api b) ++ r.2.2)

/-- batch_get_video_details (lines 622-671): the empty id list returns
immediately with no call (line 624); otherwise the ids are chunked by
50 (line 628) and the threshold-gated per-chunk loop runs.  The final
sort by duration descending (line 668) permutes the kept records only
and is not modelled, since no claim depends on record order. -/
def batch_get_video_details (api : List Nat → List (Nat × String)) (q : Nat)
    (video_ids : List Nat) : Nat × Nat × List (Nat × Nat) :=
  if video_ids = [] then (q, 0, [])
  else detailsLoop api q (chunk50 video_ids)

/-- The shared shape of the two gated mutation loops, playlistItems
delete at lines 441-461 and playlistItems insert at lines 720-751:
before each item check quota_used + 50 > 10000 and break out of the
loop; otherwise issue the call, whose success is given by ok; on
success log 50 units and count the item, on failure log nothing and
continue with the next item.  Returns the final counter, the number of
items counted, and the number of calls issued. -/
def gatedMutationLoop {α : Type} (ok : α → Bool) : Nat → List α → Nat × Nat × Nat
  | q, [] => (q, 0, 0)
  | q, v :: vs =>
    if budget < q + 50 then (q, 0, 0)
    else if ok v then
      let r := gatedMutationLoop ok (log_quota q 50) vs
      (r.1, r.2.1 + 1, r.2.2 + 1)
    else
      let r := gatedMutationLoop ok q vs
      (r.1, r.2.1, r.2.2 + 1)

/-- The insertion loop of batch_add_videos_to_playlist (lines
714-753), an instance of the gated mutation loop. -/
def batch_add_videos_to_playlist {α : Type} (ok : α → Bool) (q : Nat) (videos : List α) :
    Nat × Nat × Nat :=
  gatedMutationLoop ok q videos

/-- The removal loop of remove_old_videos_from_playlist (lines
441-461), an instance of the gated mutation loop. -/
def remove_old_videos_loop {α : Type} (ok : α → Bool) (q : Nat) (videos : List α) :
    Nat × Nat × Nat :=
  gatedMutationLoop ok q videos

/-- One playlist entry as collected by get_playlist_videos (lines
357-363): the membership handle used for deletion and the video id. -/
structure PlaylistVideo where
  playlist_item_id : Nat
  video_id : Nat
deriving DecidableEq

/-- The selection loop of remove_old_videos_from_playlist (lines
413-434): a current entry is marked for removal exactly when its video
id resolves to an actual publish instant (the videos.list batch at
lines 393-411; entries whose id is absent from the resolved map, or
whose date fails to parse, are skipped) and that instant is strictly
before yesterday_start (line 424). -/
def selectOld (resolved : Nat → Option Int) (ystart : Int) (current : List PlaylistVideo) :
    List PlaylistVideo :=
  current.filter (fun v =>
    match resolved v.video_id with
    | some t => decide (t < ystart)
    | none => false)

/-- The fields of the progress checkpoint consulted on load: lines
821-823 read target_date; the completed flag is written at line 971
but never read back. -/
structure Progress where
  target_date : String
  completed : Bool
deriving DecidableEq

/-- The checkpoint test at line 822: a saved record is recognized as
same-day progress exactly when its target_date equals the computed
target date; the completed flag is not consulted. -/
def resuming (progress : Option Progress) (targetDate : String) : Bool :=
  match progress with
  | some p => decide (p.target_date = targetDate)
  | none => false

/-- The stages of run_daily_videos_manager, in program order. -/
inductive Stage
  | findOrCreatePlaylist
  | removeOldVideos
  | getSubscriptions
  | getChannelUploads
  | scanRecentVideos
  | getVideoDetails
  | addVideosToPlaylist
  | updateSheet
deriving DecidableEq

/-- The stages run_daily_videos_manager executes (lines 798-902), as a
function of the loaded checkpoint and of the data-dependent early
returns: playlist creation failure returns at line 811, no channels at
line 831, no videos from yesterday at line 861 (after a sheet update),
no long videos at line 878 (after a sheet update).  The checkpoint is
loaded at line 821 and only selects a log message at line 823; it
guards no stage. -/
def run_steps (progress : Option Progress) (targetDate : String)
    (playlistOk haveChannels haveVideos haveLong : Bool) : List Stage :=
  if !playlistOk then [Stage.findOrCreatePlaylist]
  else if !haveChannels then
    [Stage.findOrCreatePlaylist, Stage.removeOldVideos, Stage.getSubscriptions]
  else if !haveVideos then
    [Stage.findOrCreatePlaylist, Stage.removeOldVideos, Stage.getSubscriptions,
     Stage.getChannelUploads, Stage.scanRecentVideos, Stage.updateSheet]
  else if !haveLong then
    [Stage.findOrCreatePlaylist, Stage.removeOldVideos, Stage.getSubscriptions,
     Stage.getChannelUploads, Stage.scanRecentVideos, Stage.getVideoDetails,
     Stage.updateSheet]
  else
    [Stage.findOrCreatePlaylist, Stage.removeOldVideos, Stage.getSubscriptions,
     Stage.getChannelUploads, Stage.scanRecentVideos, Stage.getVideoDetails,
     Stage.addVideosToPlaylist, Stage.updateSheet]

/-! Helper lemmas. -/

/-- Every single costed call leaves the counter at least where it was. -/
theorem quotaStep_mono (q : Nat) (op : QuotaOp) : q ≤ (quotaStep q op).1 := by
  cases op <;> simp only [quotaStep, log_quota] <;> first
    | omega
    | (split <;> simp <;> omega)

/-- The counter never decreases over a sequence of costed calls. -/
theorem runOps_mono (q : Nat) (ops : List QuotaOp) : q ≤ runOps q ops := by
  induction ops generalizing q with
  | nil => exact Nat.le_refl q
  | cons op ops ih =>
    have h1 := quotaStep_mono q op
    have h2 := ih (quotaStep q op).1
    simp only [runOps]
    exact Nat.le_trans h1 h2

/-- A run of n unguarded reads adds exactly n units. -/
theorem runOps_readUngated (n q : Nat) :
    runOps q (List.replicate n QuotaOp.readUngated) = q + n := by
  induction n generalizing q with
  | zero => simp [runOps]
  | succ n ih =>
    simp only [List.replicate_succ, runOps, quotaStep, log_quota]
    rw [ih]
    omega

/-! Claim C1. -/

/-- The subscriptions pagination never drives the counter past
max (q + 1) 9001: the first call always proceeds, and every later call
starts from a counter the 9000 check has bounded. -/
theorem get_subscriptions_batch_le :
    ∀ (n q : Nat), (get_subscriptions_batch q n).1 ≤ max (q + 1) 9001 := by
  intro n
  induction n with
  | zero =>
    intro q
    simp only [get_subscriptions_batch]
    omega
  | succ n ih =>
    intro q
    by_cases h0 : n = 0
    · subst h0
      simp [get_subscriptions_batch, log_quota]
    · by_cases h9 : 9000 < q + 1
      · simp [get_subscriptions_batch, h0, log_quota, h9]
      · simp only [get_subscriptions_batch, h0, if_false, log_quota]
        have hrec := ih (q + 1)
        simp only [log_quota] at hrec
        rw [if_neg h9]
        simp only []
        omega

/-- C1, counterexample: the claim that every costed operation is
refused when its cost would exceed the 10000 budget, and that the
counter never exceeds the budget, is false: a sequence of 10001
unguarded listing reads starting from 0 drives the counter to 10001;
the unguarded read proceeds even at counter 10000; and the unguarded
playlists.insert of create_playlist proceeds at counter 10000 and
drives it to 10050. -/
theorem C1_counterexample :
    runOps 0 (List.replicate 10001 QuotaOp.readUngated) = 10001 ∧
    (quotaStep 10000 QuotaOp.readUngated).2 = true ∧
    quotaStep 10000 QuotaOp.mutateUngated = (10050, true) ∧
    budget < 10001 := by
  have h := runOps_readUngated 10001 0
  exact ⟨by omega, rfl, rfl, by decide⟩

/-- C1, amended: the quota counter is non-decreasing over every
sequence of costed calls; the two gated mutating calls (the delete at
line 443 and the insert at line 722, cost 50) are refused when their
cost would exceed the 10000 budget, leaving the counter unchanged, and
leave the counter at most 10000 when they proceed; a threshold-gated
read that proceeds leaves it at most 9501; and the subscriptions
pagination is bounded by max (start + 1) 9001.  But the unguarded
reads and the unguarded playlists.insert of create_playlist (line 704)
are never refused, so the counter can pass 10000 (see the
counterexample). -/
theorem C1_amended :
    (∀ (q : Nat) (ops : List QuotaOp), q ≤ runOps q ops) ∧
    (∀ q : Nat, budget < q + 50 → quotaStep q QuotaOp.mutateGated = (q, false)) ∧
    (∀ q : Nat, (quotaStep q QuotaOp.mutateGated).2 = true →
      (quotaStep q QuotaOp.mutateGated).1 ≤ budget) ∧
    (∀ q : Nat, (quotaStep q QuotaOp.readGated9500).2 = true →
      (quotaStep q QuotaOp.readGated9500).1 ≤ 9501) ∧
    (∀ q : Nat, (quotaStep q QuotaOp.mutateUngated).2 = true ∧
      (quotaStep q QuotaOp.readUngated).2 = true) ∧
    (∀ n q : Nat, (get_subscriptions_batch q n).1 ≤ max (q + 1) 9001) := by
  refine ⟨runOps_mono, ?_, ?_, ?_, ?_, get_subscriptions_batch_le⟩
  · intro q h
    simp [quotaStep, h]
  · intro q h
    by_cases hc : budget < q + 50
    · simp [quotaStep, hc] at h
    · simp only [budget] at hc
      simp [quotaStep, budget, hc, log_quota]
      omega
  · intro q h
    by_cases hc : 9500 < q
    · simp [quotaStep, hc] at h
    · simp [quotaStep, hc, log_quota]
      omega
  · intro q
    exact ⟨rfl, rfl⟩

/-- C1, witness for the amended theorem at concrete inputs. -/
theorem C1_witness :
    quotaStep 9990 QuotaOp.mutateGated = (9990, false) ∧
    (quotaStep 9900 QuotaOp.mutateGated).1 ≤ budget ∧
    (quotaStep 9000 QuotaOp.readGated9500).1 ≤ 9501 :=
  ⟨C1_amended.2.1 9990 (by decide), C1_amended.2.2.1 9900 (by decide),
   C1_amended.2.2.2.1 9000 (by decide)⟩

/-! Claim C2. -/

/-- C2, counterexample: with the clock at UTC instant 172800000 the
computed window starts at UTC instant 57600000, a Hong Kong civil
midnight; the instant 143999500 lies half a second before the start of
the next Hong Kong day (23:59:59.5 local time), so it is inside the
half-open day window claimed by the specification, yet the scan test
rejects it, because get_yesterday_dates ends the window at the window
start plus 23:59:59. -/
theorem C2_counterexample :
    inYesterdayWindow (get_yesterday_dates 172800000) 143999500 = false ∧
    (get_yesterday_dates 172800000).1 ≤ 143999500 ∧
    143999500 < (get_yesterday_dates 172800000).1 + msPerDay := by
  refine ⟨by decide, by decide, by decide⟩

/-- C2, amended: the window start is aligned to a Hong Kong civil
midnight expressed as a UTC instant, the window end is the start plus
23:59:59 rather than the start of the next day, and an item is inside
the scanned window exactly when it is inside the half-open civil-day
window and additionally at most start plus 23:59:59 — the final open
second of the day, such as 23:59:59.5 local, is excluded. -/
theorem C2_amended : ∀ hkNow t : Int,
    ((get_yesterday_dates hkNow).1 + hkOffsetMs) % msPerDay = 0 ∧
    (get_yesterday_dates hkNow).2 = (get_yesterday_dates hkNow).1 + 86399000 ∧
    (inYesterdayWindow (get_yesterday_dates hkNow) t = true ↔
      ((get_yesterday_dates hkNow).1 ≤ t ∧ t < (get_yesterday_dates hkNow).1 + msPerDay ∧
        t ≤ (get_yesterday_dates hkNow).1 + 86399000)) := by
  intro hkNow t
  refine ⟨?_, rfl, ?_⟩
  · simp only [get_yesterday_dates, startOfHKDay, msPerDay, hkOffsetMs]
    omega
  · simp only [inYesterdayWindow, get_yesterday_dates, startOfHKDay, msPerDay, hkOffsetMs,
      Bool.and_eq_true, decide_eq_true_eq]
    omega

/-! Claim C3. -/

/-- C3: the scanner stops a source exactly at the first item strictly
older than the window start, examining only that item and collecting
nothing further from that source; an item at or after the window start
never stops the scan (in particular an item at or after the window end
is passed over and scanning continues); and on the synthetic
newest-first feed with instants in days 2, 2, 1, 0, 0 scanned with the
day-1 window, exactly the single day-1 video id is collected and only
four items are examined — nothing past the first day-0 item. -/
theorem C3_early_stop :
    (∀ (ws we : Int) (v : FeedItem) (rest : List FeedItem),
      v.publishedAt < ws → scanFeed ws we (v :: rest) = ([], 1)) ∧
    (∀ (ws we : Int) (v : FeedItem) (rest : List FeedItem),
      ws ≤ v.publishedAt →
        (scanFeed ws we (v :: rest)).2 = (scanFeed ws we rest).2 + 1) ∧
    scanFeed 86400000 172799000
      [⟨10, 176400000⟩, ⟨11, 172800000⟩, ⟨12, 129600000⟩, ⟨13, 43200000⟩, ⟨14, 3600000⟩] =
      ([12], 4) := by
  refine ⟨?_, ?_, by decide⟩
  · intro ws we v rest h
    have h1 : ¬(ws ≤ v.publishedAt ∧ v.publishedAt ≤ we) := by
      intro hc
      omega
    simp [scanFeed, h1, h]
  · intro ws we v rest h
    by_cases hc : v.publishedAt ≤ we
    · simp [scanFeed, h, hc]
    · have h1 : ¬(ws ≤ v.publishedAt ∧ v.publishedAt ≤ we) := by
        intro hcon
        omega
      have h2 : ¬ v.publishedAt < ws := by omega
      simp [scanFeed, h1, h2]

/-- C3, witness for the two universally quantified conjuncts at
concrete inputs. -/
theorem C3_witness :
    scanFeed 5 10 [⟨1, 3⟩] = ([], 1) ∧
    (scanFeed 5 10 [⟨2, 7⟩, ⟨3, 2⟩]).2 = (scanFeed 5 10 [⟨3, 2⟩]).2 + 1 :=
  ⟨C3_early_stop.1 5 10 ⟨1, 3⟩ [] (by decide),
   C3_early_stop.2.1 5 10 ⟨2, 7⟩ [⟨3, 2⟩] (by decide)⟩

/-! Claim C4. -/

/-- C4: the duration decoder maps PT1H2M3S to 3723 seconds and PT45S
to 45 seconds; PT, a string not starting with PT, and the empty string
all decode to 0; the details filter keeps exactly the items whose
decoded duration strictly exceeds the 600-second threshold; and an
item whose duration equals the threshold (PT10M) is excluded. -/
theorem C4_duration :
    parse_duration "PT1H2M3S" = some 3723 ∧
    parse_duration "PT45S" = some 45 ∧
    parse_duration "PT" = some 0 ∧
    parse_duration "1H2M3S" = some 0 ∧
    parse_duration "" = some 0 ∧
    (∀ (vids : List (Nat × String)) (p : Nat × Nat),
      p ∈ detailsFilter vids ↔
        (p ∈ vids.map (fun v => (v.1, (parse_duration v.2).getD 0)) ∧ 600 < p.2)) ∧
    detailsFilter [(1, "PT10M")] = [] := by
  refine ⟨by decide, by decide, by decide, by decide, by decide, ?_, by decide⟩
  intro vids p
  simp [detailsFilter, List.mem_filter]

/-! Claim C10. -/

/-- A captured group of the duration pattern is a non-empty all-digit
string. -/
theorem matchComponent_digits (u : Char) (s ds rest : List Char)
    (h : matchComponent u s = (some ds, rest)) :
    ds ≠ [] ∧ ds.all Char.isDigit = true := by
  unfold matchComponent at h
  split at h
  · split at h
    · have hds : ds = s.takeWhile Char.isDigit := by
        have := congrArg Prod.fst h
        simpa using this.symm
      subst hds
      rename_i hc
      refine ⟨hc.1, ?_⟩
      rw [List.all_eq_true]
      intro a ha
      exact List.mem_takeWhile_imp ha
    · simp at h
  · simp at h

/-- The int conversion succeeds on every captured group. -/
theorem pyInt_matchComponent (u : Char) (s : List Char) :
    (pyInt (matchComponent u s).1).isSome = true := by
  rcases hm : matchComponent u s with ⟨g, rest⟩
  cases g with
  | none => simp [pyInt]
  | some ds =>
    obtain ⟨h1, h2⟩ := matchComponent_digits u s ds rest hm
    simp [pyInt, h1, h2]

/-- Whenever the pattern matches, the int conversion of each of the
three captured groups succeeds. -/
theorem regexGroups_pyInt (l : List Char)
    (g : Option (List Char) × Option (List Char) × Option (List Char))
    (h : regexGroups l = some g) :
    (pyInt g.1).isSome = true ∧ (pyInt g.2.1).isSome = true ∧ (pyInt g.2.2).isSome = true := by
  rcases l with _ | ⟨p, _ | ⟨t, rest⟩⟩
  · simp [regexGroups] at h
  · simp [regexGroups] at h
  · rw [regexGroups] at h
    by_cases hpt : p = 'P' ∧ t = 'T'
    · rw [if_pos hpt] at h
      have hg := (Option.some.injEq _ _).mp h
      subst hg
      exact ⟨pyInt_matchComponent 'H' rest, pyInt_matchComponent 'M' _,
        pyInt_matchComponent 'S' _⟩
    · rw [if_neg hpt] at h
      simp at h

/-- C10: the duration decoder is total: for every input string,
including the empty string and strings not starting with PT, it
returns a value — the modelled int conversions never raise — and that
value is a natural number of seconds, hence non-negative. -/
theorem C10_total : ∀ s : String, ∃ n : Nat, parse_duration s = some n := by
  intro s
  unfold parse_duration
  split
  · exact ⟨0, rfl⟩
  · rcases hg : regexGroups s.toList with _ | g
    · exact ⟨0, rfl⟩
    · obtain ⟨h1, h2, h3⟩ := regexGroups_pyInt s.toList g hg
      obtain ⟨a, ha⟩ := Option.isSome_iff_exists.mp h1
      obtain ⟨b, hb⟩ := Option.isSome_iff_exists.mp h2
      obtain ⟨c, hc⟩ := Option.isSome_iff_exists.mp h3
      exact ⟨a * 3600 + b * 60 + c, by simp [ha, hb, hc]⟩

/-! Claim C5. -/

/-- Unfolding of the chunking on a non-empty list. -/
theorem chunk50_nil {α : Type} : chunk50 ([] : List α) = [] := by
  rw [chunk50]

/-- Unfolding of the chunking on a non-empty list. -/
theorem chunk50_cons {α : Type} (l : List α) (h : l ≠ []) :
    chunk50 l = l.take 50 :: chunk50 (l.drop 50) := by
  rcases l with _ | ⟨x, xs⟩
  · exact absurd rfl h
  · rw [chunk50]

/-- Concatenating the chunks gives back the original list. -/
theorem chunk50_join_aux {α : Type} :
    ∀ (n : Nat) (l : List α), l.length ≤ n → (chunk50 l).flatten = l := by
  intro n
  induction n with
  | zero =>
    intro l hl
    have : l = [] := List.eq_nil_of_length_eq_zero (Nat.le_zero.mp hl)
    subst this
    rw [chunk50_nil]
    rfl
  | succ n ih =>
    intro l hl
    by_cases h : l = []
    · subst h
      rw [chunk50_nil]
      rfl
    · rw [chunk50_cons l h]
      have hpos : 0 < l.length := List.length_pos.mpr h
      have hd : (l.drop 50).length ≤ n := by
        simp only [List.length_drop]
        omega
      rw [List.flatten_cons, ih (l.drop 50) hd]
      exact List.take_append_drop 50 l

/-- Concatenating the chunks gives back the original list. -/
theorem chunk50_join {α : Type} (l : List α) : (chunk50 l).flatten = l :=
  chunk50_join_aux l.length l (Nat.le_refl _)

/-- The number of chunks is the length divided by 50, rounded up. -/
theorem chunk50_length_aux {α : Type} :
    ∀ (n : Nat) (l : List α), l.length ≤ n → (chunk50 l).length = (l.length + 49) / 50 := by
  intro n
  induction n with
  | zero =>
    intro l hl
    have : l = [] := List.eq_nil_of_length_eq_zero (Nat.le_zero.mp hl)
    subst this
    rw [chunk50_nil]
    simp
  | succ n ih =>
    intro l hl
    by_cases h : l = []
    · subst h
      rw [chunk50_nil]
      simp
    · rw [chunk50_cons l h]
      have hpos : 0 < l.length := List.length_pos.mpr h
      have hd : (l.drop 50).length ≤ n := by
        simp only [List.length_drop]
        omega
      simp only [List.length_cons, ih (l.drop 50) hd, List.length_drop]
      omega

/-- The number of chunks is the length divided by 50, rounded up. -/
theorem chunk50_length {α : Type} (l : List α) : (chunk50 l).length = (l.length + 49) / 50 :=
  chunk50_length_aux l.length l (Nat.le_refl _)

/-- Every chunk holds at most 50 elements. -/
theorem chunk50_sizes_aux {α : Type} :
    ∀ (n : Nat) (l : List α), l.length ≤ n → ∀ c ∈ chunk50 l, c.length ≤ 50 := by
  intro n
  induction n with
  | zero =>
    intro l hl c hc
    have : l = [] := List.eq_nil_of_length_eq_zero (Nat.le_zero.mp hl)
    subst this
    rw [chunk50_nil] at hc
    simp at hc
  | succ n ih =>
    intro l hl c hc
    by_cases h : l = []
    · subst h
      rw [chunk50_nil] at hc
      simp at hc
    · rw [chunk50_cons l h] at hc
      have hpos : 0 < l.length := List.length_pos.mpr h
      have hd : (l.drop 50).length ≤ n := by
        simp only [List.length_drop]
        omega
      rcases List.mem_cons.mp hc with h1 | h2
      · subst h1
        simp only [List.length_take]
        omega
      · exact ih (l.drop 50) hd c h2

/-- Every chunk holds at most 50 elements. -/
theorem chunk50_sizes {α : Type} (l : List α) : ∀ c ∈ chunk50 l, c.length ≤ 50 :=
  chunk50_sizes_aux l.length l (Nat.le_refl _)

/-- Membership in the accumulated result of the per-chunk calls. -/
theorem foldl_append_mem {α β : Type} (api : List β → List α) :
    ∀ (bs : List (List β)) (acc : List α) (p : α),
      p ∈ bs.foldl (fun m b => m ++ api b) acc → p ∈ acc ∨ ∃ b ∈ bs, p ∈ api b := by
  intro bs
  induction bs with
  | nil =>
    intro acc p h
    exact Or.inl h
  | cons b bs ih =>
    intro acc p h
    simp only [List.foldl_cons] at h
    rcases ih (acc ++ api b) p h with h1 | ⟨b2, hb2, hp⟩
    · rcases List.mem_append.mp h1 with ha | hb
      · exact Or.inl ha
      · exact Or.inr ⟨b, List.mem_cons_self b bs, hb⟩
    · exact Or.inr ⟨b2, List.mem_cons_of_mem b hb2, hp⟩

/-- The details loop issues as many calls as there are chunks or as
the 9500 threshold allows, whichever is smaller: the gate is checked
before each chunk and every call costs one unit. -/
theorem detailsLoop_count (api : List Nat → List (Nat × String)) :
    ∀ (bs : List (List Nat)) (q : Nat),
      (detailsLoop api q bs).2.1 = min bs.length (9501 - q) := by
  intro bs
  induction bs with
  | nil =>
    intro q
    simp [detailsLoop]
  | cons b bs ih =>
    intro q
    by_cases hq : 9500 < q
    · simp only [detailsLoop, hq, if_true, List.length_cons]
      omega
    · simp only [detailsLoop, hq, if_false, log_quota, List.length_cons]
      rw [ih (q + 1)]
      omega

/-- Every record kept by the details loop has the id of a requested
chunk element. -/
theorem detailsLoop_mem (api : List Nat → List (Nat × String))
    (hapi : ∀ (b : List Nat) (p : Nat × String), p ∈ api b → p.1 ∈ b) :
    ∀ (bs : List (List Nat)) (q : Nat) (p : Nat × Nat),
      p ∈ (detailsLoop api q bs).2.2 → ∃ b ∈ bs, p.1 ∈ b := by
  intro bs
  induction bs with
  | nil =>
    intro q p hp
    simp [detailsLoop] at hp
  | cons b bs ih =>
    intro q p hp
    by_cases hq : 9500 < q
    · simp [detailsLoop, hq] at hp
    · simp only [detailsLoop, hq, if_false, log_quota] at hp
      rcases List.mem_append.mp hp with h1 | h2
      · simp only [detailsFilter, List.mem_filter, List.mem_map] at h1
        obtain ⟨⟨v, hv, hveq⟩, hgt⟩ := h1
        refine ⟨b, List.mem_cons_self b bs, ?_⟩
        have hfst : p.1 = v.1 := by
          rw [← hveq]
        rw [hfst]
        exact hapi b v hv
      · obtain ⟨b2, hb2, hpb⟩ := ih (q + 1) p h2
        exact ⟨b2, List.mem_cons_of_mem b hb2, hpb⟩

/-- C5, counterexample: the claim that the batch lookup issues exactly
ceiling of N over 50 read calls for every input fails at
batch_get_video_details: entering with the counter at 9501 — reachable,
since the feed scan stops only once its own 9500 threshold has been
passed — the gate at line 634 breaks before the first chunk, so one
requested id yields zero calls instead of one. -/
theorem C5_counterexample :
    (batch_get_video_details (fun b => b.map (fun i => (i, "PT20M"))) 9501 [7]).2.1 = 0 ∧
    (([7] : List Nat).length + 49) / 50 = 1 := by
  constructor
  · have h7 : ([7] : List Nat) ≠ [] := by decide
    simp only [batch_get_video_details, h7, if_false]
    rw [detailsLoop_count]
    omega
  · decide

/-- C5, amended: both batch lookups partition the id list into
consecutive chunks of at most 50 whose concatenation is the input,
and — provided the upstream returns records only for requested ids —
every key they return is an input id; batch_get_channel_uploads issues
exactly ceiling of N over 50 read calls (zero for the empty input),
but batch_get_video_details checks its 9500 threshold before each
chunk, so it issues the smaller of that ceiling and 9501 minus the
entry counter: the exact ceiling only when the counter stays low
enough, and zero calls once the counter is already past 9500. -/
theorem C5_amended (api_ch : List Nat → List (Nat × UploadsInfo))
    (api_vd : List Nat → List (Nat × String)) (ids : List Nat) (q : Nat)
    (hch : ∀ (b : List Nat) (p : Nat × UploadsInfo), p ∈ api_ch b → p.1 ∈ b)
    (hvd : ∀ (b : List Nat) (p : Nat × String), p ∈ api_vd b → p.1 ∈ b) :
    (chunk50 ids).flatten = ids ∧
    (∀ c ∈ chunk50 ids, c.length ≤ 50) ∧
    (batch_get_channel_uploads api_ch ids).2 = (ids.length + 49) / 50 ∧
    (∀ p ∈ (batch_get_channel_uploads api_ch ids).1, p.1 ∈ ids) ∧
    (batch_get_video_details api_vd q ids).2.1 = min ((ids.length + 49) / 50) (9501 - q) ∧
    (∀ p ∈ (batch_get_video_details api_vd q ids).2.2, p.1 ∈ ids) := by
  refine ⟨chunk50_join ids, chunk50_sizes ids, ?_, ?_, ?_, ?_⟩
  · by_cases h : ids = []
    · subst h
      rfl
    · simp only [batch_get_channel_uploads, h, if_false]
      exact chunk50_length ids
  · intro p hp
    by_cases h : ids = []
    · subst h
      simp [batch_get_channel_uploads] at hp
    · simp only [batch_get_channel_uploads, h, if_false] at hp
      rcases foldl_append_mem api_ch (chunk50 ids) [] p hp with h1 | ⟨b, hb, hpb⟩
      · simp at h1
      · have hkey := hch b p hpb
        have hsub : p.1 ∈ (chunk50 ids).flatten := List.mem_flatten.mpr ⟨b, hb, hkey⟩
        rwa [chunk50_join ids] at hsub
  · by_cases h : ids = []
    · subst h
      simp [batch_get_video_details]
    · simp only [batch_get_video_details, h, if_false]
      rw [detailsLoop_count api_vd (chunk50 ids) q, chunk50_length ids]
  · intro p hp
    by_cases h : ids = []
    · subst h
      simp [batch_get_video_details] at hp
    · simp only [batch_get_video_details, h, if_false] at hp
      obtain ⟨b, hb, hpb⟩ := detailsLoop_mem api_vd hvd (chunk50 ids) q p hp
      have hsub : p.1 ∈ (chunk50 ids).flatten := List.mem_flatten.mpr ⟨b, hb, hpb⟩
      rwa [chunk50_join ids] at hsub

/-- C5, witness for the amended theorem at concrete inputs,
discharging both upstream hypotheses. -/
theorem C5_witness :
    (batch_get_channel_uploads (fun b => b.map (fun i => (i, ⟨"u", "t"⟩))) [1, 2, 3]).2 =
      (([1, 2, 3] : List Nat).length + 49) / 50 ∧
    (batch_get_video_details (fun b => b.map (fun i => (i, "PT20M"))) 0 [1, 2, 3]).2.1 =
      min ((([1, 2, 3] : List Nat).length + 49) / 50) (9501 - 0) :=
  ⟨(C5_amended (fun b => b.map (fun i => (i, ⟨"u", "t"⟩)))
      (fun b => b.map (fun i => (i, "PT20M"))) [1, 2, 3] 0
      (by
        intro b p hp
        obtain ⟨a, ha, rfl⟩ := List.mem_map.mp hp
        simpa using ha)
      (by
        intro b p hp
        obtain ⟨a, ha, rfl⟩ := List.mem_map.mp hp
        simpa using ha)).2.2.1,
   (C5_amended (fun b => b.map (fun i => (i, ⟨"u", "t"⟩)))
      (fun b => b.map (fun i => (i, "PT20M"))) [1, 2, 3] 0
      (by
        intro b p hp
        obtain ⟨a, ha, rfl⟩ := List.mem_map.mp hp
        simpa using ha)
      (by
        intro b p hp
        obtain ⟨a, ha, rfl⟩ := List.mem_map.mp hp
        simpa using ha)).2.2.2.2.1⟩

/-! Claim C6. -/

/-- C6: with the counter at 9850 — a remaining budget of exactly three
50-unit mutating calls — and ten videos to insert, all of whose remote
calls succeed, the insertion loop issues exactly three insert calls,
reports three additions, and stops before the remaining seven; the
loop returns normally. -/
theorem C6_partial_budget :
    batch_add_videos_to_playlist (fun _ : Nat => true) 9850
      [0, 1, 2, 3, 4, 5, 6, 7, 8, 9] = (10000, 3, 3) := by
  decide

/-! Claims C7 and C9 share facts about the gated mutation loop. -/

/-- When the remaining budget is below one 50-unit call, the loop
issues nothing and leaves the counter unchanged. -/
theorem gatedMutationLoop_gate {α : Type} (ok : α → Bool) (q : Nat) (vs : List α)
    (h : budget < q + 50) : gatedMutationLoop ok q vs = (q, 0, 0) := by
  cases vs with
  | nil => rfl
  | cons v vs => simp [gatedMutationLoop, h]

/-- The final counter is the initial counter plus 50 units per
successful call: failed calls record no cost. -/
theorem gatedMutationLoop_quota {α : Type} (ok : α → Bool) :
    ∀ (vs : List α) (q : Nat),
      (gatedMutationLoop ok q vs).1 = q + 50 * (gatedMutationLoop ok q vs).2.1 := by
  intro vs
  induction vs with
  | nil =>
    intro q
    simp [gatedMutationLoop]
  | cons v vs ih =>
    intro q
    by_cases hq : budget < q + 50
    · simp [gatedMutationLoop, hq]
    · by_cases hok : ok v
      · simp only [gatedMutationLoop, hq, if_false, hok, if_true, log_quota]
        rw [ih (q + 50)]
        omega
      · simp only [gatedMutationLoop, hq, if_false, hok]
        exact ih q

/-- With an always-succeeding remote, the number of calls performed is
the partial count: as many items as the remaining budget allows in
steps of 50. -/
theorem gatedMutationLoop_count {α : Type} :
    ∀ (vs : List α) (q : Nat), q ≤ budget →
      (gatedMutationLoop (fun _ => true) q vs).2.1 =
        min vs.length ((budget - q) / 50) := by
  intro vs
  induction vs with
  | nil =>
    intro q hq
    simp [gatedMutationLoop]
  | cons v vs ih =>
    intro q hq
    by_cases hgate : budget < q + 50
    · rw [gatedMutationLoop_gate _ _ _ hgate]
      show (0 : Nat) = min (v :: vs).length ((budget - q) / 50)
      simp only [List.length_cons, budget] at hgate ⊢
      omega
    · have hq50 : q + 50 ≤ budget := by
        simp only [budget] at hgate ⊢
        omega
      simp only [gatedMutationLoop, hgate, if_false, if_true, log_quota]
      rw [ih (q + 50) hq50]
      simp only [budget, List.length_cons] at hq hgate ⊢
      omega

/-! Claim C7. -/

/-- C7: the removal pass marks exactly the current playlist entries
whose resolved publish instant is strictly before the window start —
entries at or after the start, and entries with no resolved instant,
are never marked; the removal loop refuses to start a removal once the
remaining budget is below 50 and leaves the counter unchanged; each
successful removal costs 50 units; and with an always-succeeding
remote the count returned is the partial count: the number of marked
entries capped by the remaining budget divided by 50. -/
theorem C7_removal_pass :
    (∀ (resolved : Nat → Option Int) (ystart : Int) (current : List PlaylistVideo)
      (v : PlaylistVideo),
      v ∈ selectOld resolved ystart current ↔
        (v ∈ current ∧ ∃ t, resolved v.video_id = some t ∧ t < ystart)) ∧
    (∀ (α : Type) (ok : α → Bool) (q : Nat) (vs : List α), budget < q + 50 →
      remove_old_videos_loop ok q vs = (q, 0, 0)) ∧
    (∀ (α : Type) (ok : α → Bool) (q : Nat) (vs : List α),
      (remove_old_videos_loop ok q vs).1 = q + 50 * (remove_old_videos_loop ok q vs).2.1) ∧
    (∀ (α : Type) (q : Nat) (vs : List α), q ≤ budget →
      (remove_old_videos_loop (fun _ => true) q vs).2.1 =
        min vs.length ((budget - q) / 50)) := by
  refine ⟨?_, ?_, ?_, ?_⟩
  · intro resolved ystart current v
    simp only [selectOld, List.mem_filter]
    apply and_congr_right
    intro _
    cases hr : resolved v.video_id with
    | none => simp [hr]
    | some t => simp [hr]
  · intro α ok q vs h
    exact gatedMutationLoop_gate ok q vs h
  · intro α ok q vs
    exact gatedMutationLoop_quota ok vs q
  · intro α q vs h
    exact gatedMutationLoop_count vs q h

/-- C7, witness at concrete inputs: the selection marks exactly the
entry published before the window start, a loop at counter 9980
refuses to remove, and a loop at counter 9900 with three marked
entries removes exactly two. -/
theorem C7_witness :
    (⟨5, 6⟩ : PlaylistVideo) ∈
      selectOld (fun i => if i = 6 then some 100 else some 900) 500
        [⟨5, 6⟩, ⟨7, 8⟩] ∧
    remove_old_videos_loop (fun _ : Nat => true) 9980 [7] = (9980, 0, 0) ∧
    (remove_old_videos_loop (fun _ : Nat => true) 9900 [1, 2, 3]).2.1 =
      min ([1, 2, 3] : List Nat).length ((budget - 9900) / 50) :=
  ⟨(C7_removal_pass.1 (fun i => if i = 6 then some 100 else some 900) 500
      [⟨5, 6⟩, ⟨7, 8⟩] ⟨5, 6⟩).mpr (by decide),
   C7_removal_pass.2.1 Nat (fun _ => true) 9980 [7] (by decide),
   C7_removal_pass.2.2.2 Nat 9900 [1, 2, 3] (by decide)⟩

/-! Claim C8. -/

/-- C8, counterexample: with a saved checkpoint whose target_date
equals the computed target date and whose completed flag is false, the
run recognizes same-day resumption, yet it still executes the
discovery stages — the subscriptions fetch and the per-feed scan — so
the claim that already-completed discovery work is not re-run is
false; the checkpoint match only selects a log message. -/
theorem C8_counterexample :
    resuming (some ⟨"2025-10-11", false⟩) "2025-10-11" = true ∧
    Stage.getSubscriptions ∈
      run_steps (some ⟨"2025-10-11", false⟩) "2025-10-11" true true true true ∧
    Stage.scanRecentVideos ∈
      run_steps (some ⟨"2025-10-11", false⟩) "2025-10-11" true true true true := by
  refine ⟨by decide, by decide, by decide⟩

/-- C8, amended: a checkpoint is recognized as same-day progress
exactly when it exists and its target_date equals the computed target
date — the completed flag is ignored, and a checkpoint with a
different target_date is not recognized — but recognition changes no
control flow: the stages executed are identical whatever checkpoint
was loaded, so discovery is always re-run. -/
theorem C8_amended : ∀ (progress : Option Progress) (targetDate : String)
    (a b c d : Bool),
    (resuming progress targetDate = true ↔
      ∃ p, progress = some p ∧ p.target_date = targetDate) ∧
    run_steps progress targetDate a b c d = run_steps none targetDate a b c d := by
  intro progress targetDate a b c d
  constructor
  · cases progress with
    | none => simp [resuming]
    | some p => simp [resuming]
  · rfl

/-! Claim C9. -/

/-- C9, counterexample: a gated insert whose budget check passes but
whose remote call fails leaves the quota counter unchanged: one call
is issued from counter 0, nothing is added, and the counter stays 0
instead of rising by the claimed sunk cost of 50. -/
theorem C9_counterexample :
    batch_add_videos_to_playlist (fun _ : Nat => false) 0 [7] = (0, 0, 1) := by
  decide

/-- C9, amended: cost is recorded only after a successful call: when
the budget check passes, a failed insert leaves the counter unchanged
while a successful one adds its 50-unit cost, and over any gated
mutation loop the final counter is the initial counter plus 50 per
successful call — no cost is sunk for failed calls, and there is no
reservation to roll back. -/
theorem C9_amended : ∀ q v : Nat, q + 50 ≤ budget →
    (batch_add_videos_to_playlist (fun _ : Nat => false) q [v] = (q, 0, 1) ∧
     batch_add_videos_to_playlist (fun _ : Nat => true) q [v] = (q + 50, 1, 1) ∧
     ∀ (ok : Nat → Bool) (vs : List Nat),
       (batch_add_videos_to_playlist ok q vs).1 =
         q + 50 * (batch_add_videos_to_playlist ok q vs).2.1) := by
  intro q v h
  have hg : ¬ budget < q + 50 := by omega
  refine ⟨?_, ?_, ?_⟩
  · simp [batch_add_videos_to_playlist, gatedMutationLoop, hg]
  · simp [batch_add_videos_to_playlist, gatedMutationLoop, hg, log_quota]
  · intro ok vs
    exact gatedMutationLoop_quota ok vs q

/-- C9, witness for the amended theorem at a concrete counter and
video. -/
theorem C9_witness :
    batch_add_videos_to_playlist (fun _ : Nat => false) 100 [7] = (100, 0, 1) :=
  (C9_amended 100 7 (by decide)).1

end YTM
